import Mathlib

/-!
Verification of the image-upload form component (`ImageUpload` in
`src/components/image-form/image-crop-dialog.tsx`).

The component's list-mutation handlers and the file-intake pipeline are
embedded shallowly: browser `File` objects become `SrcFile` records,
`ImageItem` mirrors the exported interface, and the asynchronous parts of
`handleFiles` (the `onUpload` callback / `fileToDataUrl` read, and
`generateId`'s `Date.now()`-plus-random supply) are abstracted as explicit
function parameters `resolve` and `idGen`, so that each handler is a pure
function whose observable effects (`onChange` calls, toasts) are returned
as data.
-/

namespace ImageForm

/-- A browser `File` as far as the component inspects it: `name`, declared
MIME `type`, and byte `size`. -/
structure SrcFile where
  name : String
  type : String
  size : Nat
deriving Repr, DecidableEq

/-- Mirrors `interface ImageItem { id: string; url: string; file?: File }`. -/
structure ImageItem where
  id : String
  url : String
  file : Option SrcFile := none
deriving Repr, DecidableEq

/-- The `DEFAULT_ALLOWED_TYPES` constant from the source. -/
def DEFAULT_ALLOWED_TYPES : List String :=
  ["image/jpeg", "image/jpg", "image/png", "image/webp", "image/gif"]

/-- The `DEFAULT_MAX_FILE_SIZE = 5 * 1024 * 1024` constant. -/
def DEFAULT_MAX_FILE_SIZE : Nat := 5 * 1024 * 1024

/-- Renders `allowedTypes.map(t => t.split("/")[1].toUpperCase()).join(", ")`. -/
def formatsList (allowedTypes : List String) : String :=
  String.intercalate ", " (allowedTypes.map (fun t => ((t.splitOn "/").getD 1 "").toUpper))

/-- The type-violation message built in `validateFile`. -/
def typeErrorMsg (allowedTypes : List String) (f : SrcFile) : String :=
  "File " ++ f.name ++ ": invalid format. Allowed: " ++ formatsList allowedTypes

/-- The size-violation message built in `validateFile`
(`(maxFileSize / (1024 * 1024)).toFixed(0)` rendered via Nat division). -/
def sizeErrorMsg (maxFileSize : Nat) (f : SrcFile) : String :=
  "File " ++ f.name ++ ": exceeds size limit. Maximum " ++
    toString (maxFileSize / (1024 * 1024)) ++ "MB"

/-- Per-file `validateFile`: type allow-list check first, then the size ceiling;
`null` (here `none`) means accept. -/
def validateFile (allowedTypes : List String) (maxFileSize : Nat) (f : SrcFile) :
    Option String :=
  if ¬ allowedTypes.contains f.type then
    some (typeErrorMsg allowedTypes f)
  else if f.size > maxFileSize then
    some (sizeErrorMsg maxFileSize f)
  else
    none

/-- The `errors` array collected by the `fileArray.forEach` loop in
`handleFiles`: one message per rejected file, in selection order. -/
def validationErrorsOf (allowedTypes : List String) (maxFileSize : Nat)
    (files : List SrcFile) : List String :=
  files.filterMap (validateFile allowedTypes maxFileSize)

/-- The `validFiles` array collected by the same loop: the files with no
validation error, in selection order. -/
def validFilesOf (allowedTypes : List String) (maxFileSize : Nat)
    (files : List SrcFile) : List SrcFile :=
  files.filter (fun f => (validateFile allowedTypes maxFileSize f).isNone)

/-- The sequential `for (const file of validFiles)` loop of `handleFiles`:
each file is resolved to a URL (`onUpload` or `fileToDataUrl`, abstracted as
`resolve`), and on success a record `{ id: generateId(), url, file }` is
pushed. The `k`-th call of `generateId` is abstracted as `idGen k`; `k`
counts the calls made so far. The first failing `await` aborts the whole
loop (the surrounding `try` catches it), which `Except.error` mirrors. -/
def resolveAll (resolve : SrcFile → Except String String) (idGen : Nat → String) :
    Nat → List SrcFile → Except String (List ImageItem)
  | _, [] => Except.ok []
  | k, f :: fs =>
    match resolve f with
    | Except.error e => Except.error e
    | Except.ok url =>
      match resolveAll resolve idGen (k + 1) fs with
      | Except.error e => Except.error e
      | Except.ok rest => Except.ok ({ id := idGen k, url := url, file := some f } :: rest)

/-- The `if (errors.length > 0) toast(...)` step of `handleFiles`: one
validation toast, carrying all collected messages, exactly when at least one
file was rejected. -/
def reportsOf (allowedTypes : List String) (maxFileSize : Nat)
    (files : List SrcFile) : List (List String) :=
  if (validationErrorsOf allowedTypes maxFileSize files).length > 0 then
    [validationErrorsOf allowedTypes maxFileSize files]
  else []

/-- Observable effects of one `handleFiles` run: every `onChange` payload, the
number of max-images toasts, each validation-errors toast (as its list of
messages), the number of processing-failure toasts, and each success toast's
reported count. -/
structure IntakeResult where
  onChangeCalls : List (List ImageItem)
  aggregateErrors : Nat
  validationReports : List (List String)
  processFailures : Nat
  successReports : List Nat
deriving Repr, DecidableEq

/-- Intake pipeline `handleFiles`: early return on an empty selection; wholesale rejection when
`images.length + fileArray.length > maxImages`; otherwise per-file validation,
one validation toast if any file was rejected, and — when at least one file
survived — sequential resolution that either commits `[...images, ...newImages]`
through a single `onChange` plus a success toast, or reports one failure and
commits nothing. -/
def handleFiles (images : List ImageItem) (maxImages : Nat)
    (allowedTypes : List String) (maxFileSize : Nat)
    (resolve : SrcFile → Except String String) (idGen : Nat → String)
    (files : List SrcFile) : IntakeResult :=
  if files.length = 0 then
    { onChangeCalls := [], aggregateErrors := 0, validationReports := [],
      processFailures := 0, successReports := [] }
  else if images.length + files.length > maxImages then
    { onChangeCalls := [], aggregateErrors := 1, validationReports := [],
      processFailures := 0, successReports := [] }
  else
    if (validFilesOf allowedTypes maxFileSize files).length > 0 then
      match resolveAll resolve idGen 0 (validFilesOf allowedTypes maxFileSize files) with
      | Except.ok newImages =>
        { onChangeCalls := [images ++ newImages], aggregateErrors := 0,
          validationReports := reportsOf allowedTypes maxFileSize files,
          processFailures := 0, successReports := [newImages.length] }
      | Except.error _ =>
        { onChangeCalls := [], aggregateErrors := 0,
          validationReports := reportsOf allowedTypes maxFileSize files,
          processFailures := 1, successReports := [] }
    else
      { onChangeCalls := [], aggregateErrors := 0,
        validationReports := reportsOf allowedTypes maxFileSize files,
        processFailures := 0, successReports := [] }

/-- JavaScript `Array.prototype.filter` with the index argument, specialised to
the predicate of `handleRemoveImage`; `k` is the running element index. -/
def filterIdxNe (index : Nat) : Nat → List ImageItem → List ImageItem
  | _, [] => []
  | k, x :: xs =>
    if k ≠ index then x :: filterIdxNe index (k + 1) xs
    else filterIdxNe index (k + 1) xs

/-- Removal handler `handleRemoveImage`: `images.filter((_, i) => i !== index)`,
handed to `onChange`. -/
def handleRemoveImage (images : List ImageItem) (index : Nat) : List ImageItem :=
  filterIdxNe index 0 images

/-- The list built by `handleSetAsCover` for a non-zero index:
`splice(index, 1)` out of a copy, then `unshift` the moved element. Indices
always come from the rendered list, so the out-of-range arm is never hit. -/
def promoteToCover (images : List ImageItem) (index : Nat) : List ImageItem :=
  if index = 0 then images
  else
    match images[index]? with
    | none => images
    | some moved => moved :: images.eraseIdx index

/-- Cover handler `handleSetAsCover` including its early return: `none` means `onChange` is
not called. -/
def handleSetAsCover (images : List ImageItem) (index : Nat) :
    Option (List ImageItem) :=
  if index = 0 then none
  else
    match images[index]? with
    | none => none
    | some moved => some (moved :: images.eraseIdx index)

/-- The list built by `handleCropComplete` once the new URL is known:
`newImages[index] = { ...image, url: newUrl }`. The crop artifact's
resolution to `newUrl` (data URL or the `onCropComplete` callback) happens
before this update and is abstracted into the `newUrl` argument. -/
def handleCropComplete (images : List ImageItem) (index : Nat) (newUrl : String) :
    List ImageItem :=
  match images[index]? with
  | none => images
  | some image => images.set index { image with url := newUrl }

/-- The reorder performed by `handleDragEnd` when it fires:
`splice(draggedIndex, 1)` then `splice(dragOverIndex, 0, movedImage)` —
remove-then-insert against the shortened list. -/
def reorder (images : List ImageItem) (fromIdx toIdx : Nat) : List ImageItem :=
  match images[fromIdx]? with
  | none => images
  | some moved => (images.eraseIdx fromIdx).insertIdx toIdx moved

/-- Drag handler `handleDragEnd` with its guards: nothing happens unless reorder is enabled,
both indices are tracked, and they differ; `none` means `onChange` is not
called. -/
def handleDragEnd (enableReorder : Bool) (images : List ImageItem)
    (draggedIndex dragOverIndex : Option Nat) : Option (List ImageItem) :=
  match enableReorder, draggedIndex, dragOverIndex with
  | true, some i, some j => if i ≠ j then some (reorder images i j) else none
  | _, _, _ => none

/-! ### Helper lemmas about list surgery -/

/-- Reinserting at `i` the element erased from position `i` restores the list. -/
theorem insertIdx_eraseIdx_self {α : Type} :
    ∀ (l : List α) (i : Nat) (x : α), l[i]? = some x → (l.eraseIdx i).insertIdx i x = l
  | [], i, x, h => by simp at h
  | a :: t, 0, x, h => by
    simp only [List.getElem?_cons_zero, Option.some.injEq] at h
    simp [List.eraseIdx, List.insertIdx, h]
  | a :: t, i + 1, x, h => by
    simp only [List.getElem?_cons_succ] at h
    simp only [List.eraseIdx_cons_succ, List.insertIdx_succ_cons, List.cons.injEq, true_and]
    exact insertIdx_eraseIdx_self t i x h

/-- A list is a permutation of its `i`-th element consed onto the erasure at `i`. -/
theorem perm_cons_eraseIdx {α : Type} (l : List α) (i : Nat) (x : α)
    (h : l[i]? = some x) : List.Perm l (x :: l.eraseIdx i) := by
  have hi : i < l.length := (List.getElem?_eq_some.mp h).1
  have hle : i ≤ (l.eraseIdx i).length := by
    rw [List.length_eraseIdx]
    simp only [hi, if_true]
    omega
  have hp := List.perm_insertIdx x (l.eraseIdx i) hle
  rw [insertIdx_eraseIdx_self l i x h] at hp
  exact hp

/-- Unfolding of `reorder` when the source index is in range. -/
theorem reorder_eq_of_getElem (l : List ImageItem) (i j : Nat) (x : ImageItem)
    (h : l[i]? = some x) : reorder l i j = (l.eraseIdx i).insertIdx j x := by
  unfold reorder
  rw [h]

/-- The reorder step is a permutation of the input list. -/
theorem reorder_perm (l : List ImageItem) (i j : Nat) (hi : i < l.length)
    (hj : j ≤ l.length - 1) : List.Perm (reorder l i j) l := by
  have hg : l[i]? = some (l.get ⟨i, hi⟩) := List.getElem?_eq_getElem hi
  rw [reorder_eq_of_getElem l i j _ hg]
  have hle : j ≤ (l.eraseIdx i).length := by
    rw [List.length_eraseIdx]
    simp only [hi, if_true]
    omega
  exact (List.perm_insertIdx _ _ hle).trans (perm_cons_eraseIdx l i _ hg).symm

/-- Dragging an element onto its own position is the identity. -/
theorem reorder_self (l : List ImageItem) (i : Nat) : reorder l i i = l := by
  unfold reorder
  split
  · rfl
  next x hx => exact insertIdx_eraseIdx_self l i x hx

/-- Round trip: undoing a drag with the inverse drag restores the original list. -/
theorem reorder_reorder_self (l : List ImageItem) (i j : Nat) (hi : i < l.length)
    (hj : j < l.length) : reorder (reorder l i j) j i = l := by
  have hg : l[i]? = some (l.get ⟨i, hi⟩) := List.getElem?_eq_getElem hi
  rw [reorder_eq_of_getElem l i j _ hg]
  have hle : j ≤ (l.eraseIdx i).length := by
    rw [List.length_eraseIdx]
    simp only [hi, if_true]
    omega
  have hlen : j < ((l.eraseIdx i).insertIdx j (l.get ⟨i, hi⟩)).length := by
    rw [List.length_insertIdx _ _ hle]
    omega
  have hx : ((l.eraseIdx i).insertIdx j (l.get ⟨i, hi⟩))[j]? = some (l.get ⟨i, hi⟩) := by
    rw [List.getElem?_eq_getElem hlen]
    exact congrArg some (List.getElem_insertIdx_self _ _ _ hle)
  rw [reorder_eq_of_getElem _ j i _ hx, List.eraseIdx_insertIdx]
  exact insertIdx_eraseIdx_self l i _ hg

/-- Unfolding of `promoteToCover` at a non-zero in-range index. -/
theorem promoteToCover_eq_of_getElem (l : List ImageItem) (i : Nat) (x : ImageItem)
    (hne : i ≠ 0) (h : l[i]? = some x) : promoteToCover l i = x :: l.eraseIdx i := by
  unfold promoteToCover
  rw [if_neg hne, h]

/-- Promotion to cover is a permutation of the input list. -/
theorem promoteToCover_perm (l : List ImageItem) (i : Nat) (hi : i < l.length) :
    List.Perm (promoteToCover l i) l := by
  by_cases h0 : i = 0
  · subst h0
    unfold promoteToCover
    simp
  · have hg : l[i]? = some (l.get ⟨i, hi⟩) := List.getElem?_eq_getElem hi
    rw [promoteToCover_eq_of_getElem l i _ h0 hg]
    exact (perm_cons_eraseIdx l i _ hg).symm

/-- Values of `filterIdxNe` once the running index has passed the target index. -/
theorem filterIdxNe_of_lt :
    ∀ (l : List ImageItem) (k index : Nat), index < k → filterIdxNe index k l = l
  | [], _, _, _ => rfl
  | x :: xs, k, index, h => by
    have hne : k ≠ index := by omega
    simp only [filterIdxNe, hne, ne_eq, not_false_iff, if_true]
    rw [filterIdxNe_of_lt xs (k + 1) index (by omega)]

/-- Filtering out the running index `k + d` keeps the first `d` elements and the
tail after the `d`-th. -/
theorem filterIdxNe_add :
    ∀ (l : List ImageItem) (k d : Nat),
      filterIdxNe (k + d) k l = l.take d ++ l.drop (d + 1)
  | [], k, d => by simp [filterIdxNe]
  | x :: xs, k, 0 => by
    simp only [Nat.add_zero, filterIdxNe, ne_eq, not_true_eq_false, if_false]
    rw [filterIdxNe_of_lt xs (k + 1) k (by omega)]
    simp
  | x :: xs, k, d + 1 => by
    have hne : k ≠ k + (d + 1) := by omega
    simp only [filterIdxNe, hne, ne_eq, not_false_iff, if_true]
    have ih := filterIdxNe_add xs (k + 1) d
    rw [show k + (d + 1) = k + 1 + d by omega, ih]
    simp

/-- The removal handler is erasure at the index. -/
theorem handleRemoveImage_eq_take_drop (l : List ImageItem) (i : Nat) :
    handleRemoveImage l i = l.take i ++ l.drop (i + 1) := by
  have h := filterIdxNe_add l 0 i
  rw [Nat.zero_add] at h
  exact h

/-- Setting an index to the value it already holds is the identity. -/
theorem set_getElem_self_eq {α : Type} (l : List α) (n : Nat) (x : α)
    (h : l[n]? = some x) : l.set n x = l := by
  apply List.ext_getElem?
  intro i
  by_cases hi : i = n
  · subst hi
    have hlt : i < l.length := (List.getElem?_eq_some.mp h).1
    rw [List.getElem?_set_eq_of_lt x hlt, h]
  · rw [List.getElem?_set_ne (by omega)]

/-- The crop-commit update never touches any `id`: the projected id list is
unchanged. -/
theorem handleCropComplete_map_id (l : List ImageItem) (i : Nat) (u : String) :
    (handleCropComplete l i u).map ImageItem.id = l.map ImageItem.id := by
  unfold handleCropComplete
  split
  · rfl
  next image h =>
    rw [List.map_set]
    apply set_getElem_self_eq
    have hlt : i < l.length := (List.getElem?_eq_some.mp h).1
    have hmap : i < (l.map ImageItem.id).length := by simpa using hlt
    rw [List.getElem?_eq_getElem hmap]
    have := List.getElem?_eq_getElem hlt
    rw [this] at h
    simp only [Option.some.injEq] at h
    simp [List.getElem_map, ← h]

/-! ### Helper lemmas about the sequential resolution loop -/

/-- Full characterisation of a successful resolution run: one record per file,
in order, with the `k`-th id drawn from the supply, the original file kept, and
the url the one the resolver returned. -/
theorem resolveAll_ok_spec (resolve : SrcFile → Except String String)
    (idGen : Nat → String) :
    ∀ (fs : List SrcFile) (k : Nat) (out : List ImageItem),
      resolveAll resolve idGen k fs = Except.ok out →
      out.length = fs.length ∧
      ∀ (m : Nat) (h1 : m < out.length) (h2 : m < fs.length),
        (out.get ⟨m, h1⟩).id = idGen (k + m) ∧
        (out.get ⟨m, h1⟩).file = some (fs.get ⟨m, h2⟩) ∧
        resolve (fs.get ⟨m, h2⟩) = Except.ok ((out.get ⟨m, h1⟩).url)
  | [], k, out, h => by
    simp only [resolveAll, Except.ok.injEq] at h
    subst h
    exact ⟨rfl, fun m h1 h2 => absurd h1 (by simp)⟩
  | f :: fs, k, out, h => by
    rw [resolveAll] at h
    cases hr : resolve f with
    | error e => rw [hr] at h; cases h
    | ok url =>
      rw [hr] at h
      cases ha : resolveAll resolve idGen (k + 1) fs with
      | error e => rw [ha] at h; cases h
      | ok rest =>
        rw [ha] at h
        simp only [Except.ok.injEq] at h
        subst h
        obtain ⟨hlen, hall⟩ := resolveAll_ok_spec resolve idGen fs (k + 1) rest ha
        refine ⟨by simp [hlen], ?_⟩
        intro m h1 h2
        cases m with
        | zero => exact ⟨by simp, by simp, by simpa using hr⟩
        | succ m =>
          have h1' : m < rest.length := by simpa using h1
          have h2' : m < fs.length := by simpa using h2
          obtain ⟨hid, hfile, hurl⟩ := hall m h1' h2'
          refine ⟨?_, ?_, ?_⟩
          · simpa [show k + 1 + m = k + (m + 1) by omega] using hid
          · simpa using hfile
          · simpa using hurl

/-- The id list of a successful resolution run is the supply applied to
`k, k+1, …`. -/
theorem resolveAll_ok_ids (resolve : SrcFile → Except String String)
    (idGen : Nat → String) :
    ∀ (fs : List SrcFile) (k : Nat) (out : List ImageItem),
      resolveAll resolve idGen k fs = Except.ok out →
      out.map ImageItem.id = (List.range fs.length).map (fun m => idGen (k + m))
  | [], k, out, h => by
    simp only [resolveAll, Except.ok.injEq] at h
    subst h
    simp
  | f :: fs, k, out, h => by
    rw [resolveAll] at h
    cases hr : resolve f with
    | error e => rw [hr] at h; cases h
    | ok url =>
      rw [hr] at h
      cases ha : resolveAll resolve idGen (k + 1) fs with
      | error e => rw [ha] at h; cases h
      | ok rest =>
        rw [ha] at h
        simp only [Except.ok.injEq] at h
        subst h
        have ih := resolveAll_ok_ids resolve idGen fs (k + 1) rest ha
        simp only [List.map_cons, ih, List.length_cons, List.range_succ_eq_map,
          List.map_map]
        have hfun : (fun m => idGen (k + 1 + m)) =
            ((fun m => idGen (k + m)) ∘ Nat.succ) := by
          funext m
          simp only [Function.comp]
          congr 1
          omega
        rw [hfun]
        simp [Nat.add_zero]

/-- If every file in the list resolves, the whole run succeeds. -/
theorem resolveAll_ok_of_forall (resolve : SrcFile → Except String String)
    (idGen : Nat → String) :
    ∀ (fs : List SrcFile) (k : Nat),
      (∀ f ∈ fs, ∃ u, resolve f = Except.ok u) →
      ∃ out, resolveAll resolve idGen k fs = Except.ok out
  | [], k, _ => ⟨[], rfl⟩
  | f :: fs, k, h => by
    obtain ⟨u, hu⟩ := h f (by simp)
    obtain ⟨rest, hrest⟩ :=
      resolveAll_ok_of_forall resolve idGen fs (k + 1) (fun g hg => h g (by simp [hg]))
    exact ⟨_, by rw [resolveAll, hu, hrest]⟩

/-- If some file in the list fails to resolve, the whole run fails. -/
theorem resolveAll_error_of_mem (resolve : SrcFile → Except String String)
    (idGen : Nat → String) :
    ∀ (fs : List SrcFile) (k : Nat) (f : SrcFile) (e : String),
      f ∈ fs → resolve f = Except.error e →
      ∃ e2, resolveAll resolve idGen k fs = Except.error e2
  | [], _, _, _, hmem, _ => absurd hmem (by simp)
  | g :: fs, k, f, e, hmem, hf => by
    cases hr : resolve g with
    | error e2 => exact ⟨e2, by rw [resolveAll, hr]⟩
    | ok url =>
      have hfs : f ∈ fs := by
        rcases List.mem_cons.mp hmem with hfg | hfs
        · subst hfg
          rw [hf] at hr
          cases hr
        · exact hfs
      obtain ⟨e2, he2⟩ := resolveAll_error_of_mem resolve idGen fs (k + 1) f e hfs hf
      exact ⟨e2, by rw [resolveAll, hr, he2]⟩

/-- Unfolding of `handleCropComplete` when the index is in range. -/
theorem handleCropComplete_eq_of_getElem (l : List ImageItem) (i : Nat)
    (u : String) (x : ImageItem) (h : l[i]? = some x) :
    handleCropComplete l i u = l.set i { x with url := u } := by
  unfold handleCropComplete
  rw [h]

/-- Unfolding of `handleFiles` past the empty-selection and ceiling guards,
when the resolution loop fails. -/
theorem handleFiles_eq_of_error (images : List ImageItem) (maxImages : Nat)
    (allowedTypes : List String) (maxFileSize : Nat)
    (resolve : SrcFile → Except String String) (idGen : Nat → String)
    (files : List SrcFile) (e : String)
    (h0 : ¬ files.length = 0)
    (h1 : ¬ images.length + files.length > maxImages)
    (hv : (validFilesOf allowedTypes maxFileSize files).length > 0)
    (he : resolveAll resolve idGen 0 (validFilesOf allowedTypes maxFileSize files) =
      Except.error e) :
    handleFiles images maxImages allowedTypes maxFileSize resolve idGen files =
      { onChangeCalls := [], aggregateErrors := 0,
        validationReports := reportsOf allowedTypes maxFileSize files,
        processFailures := 1, successReports := [] } := by
  unfold handleFiles
  rw [if_neg h0, if_neg h1, if_pos hv, he]

/-- Unfolding of `handleFiles` past the empty-selection and ceiling guards,
when the resolution loop succeeds. -/
theorem handleFiles_eq_of_ok (images : List ImageItem) (maxImages : Nat)
    (allowedTypes : List String) (maxFileSize : Nat)
    (resolve : SrcFile → Except String String) (idGen : Nat → String)
    (files : List SrcFile) (out : List ImageItem)
    (h0 : ¬ files.length = 0)
    (h1 : ¬ images.length + files.length > maxImages)
    (hv : (validFilesOf allowedTypes maxFileSize files).length > 0)
    (ho : resolveAll resolve idGen 0 (validFilesOf allowedTypes maxFileSize files) =
      Except.ok out) :
    handleFiles images maxImages allowedTypes maxFileSize resolve idGen files =
      { onChangeCalls := [images ++ out], aggregateErrors := 0,
        validationReports := reportsOf allowedTypes maxFileSize files,
        processFailures := 0, successReports := [out.length] } := by
  unfold handleFiles
  rw [if_neg h0, if_neg h1, if_pos hv, ho]

/-! ### Claim theorems -/

/-- C1: whenever the current count plus the (non-empty) incoming batch size
exceeds `maxImages`, the intake pipeline rejects the whole batch before any
per-file validation: exactly one aggregate error, no validation report, no
processing, no success, and no `onChange` call. -/
theorem batch_overflow_rejected_C1 (images : List ImageItem) (maxImages : Nat)
    (allowedTypes : List String) (maxFileSize : Nat)
    (resolve : SrcFile → Except String String) (idGen : Nat → String)
    (files : List SrcFile) (hne : files ≠ [])
    (hover : images.length + files.length > maxImages) :
    handleFiles images maxImages allowedTypes maxFileSize resolve idGen files =
      { onChangeCalls := [], aggregateErrors := 1, validationReports := [],
        processFailures := 0, successReports := [] } := by
  have h0 : ¬ files.length = 0 := by simpa [List.length_eq_zero] using hne
  unfold handleFiles
  rw [if_neg h0, if_pos hover]

/-- Witness for C1, spec scenario C: a list of one record plus ten incoming
valid files with `maxImages = 10` is rejected wholesale with one aggregate
error and no `onChange`. -/
theorem batch_overflow_rejected_C1_witness :
    handleFiles [{ id := "a", url := "u" }] 10 DEFAULT_ALLOWED_TYPES
      DEFAULT_MAX_FILE_SIZE (fun f => Except.ok f.name) (fun _ => "fresh")
      (List.replicate 10 { name := "p.jpg", type := "image/jpeg", size := 1 }) =
      { onChangeCalls := [], aggregateErrors := 1, validationReports := [],
        processFailures := 0, successReports := [] } :=
  batch_overflow_rejected_C1 [{ id := "a", url := "u" }] 10 DEFAULT_ALLOWED_TYPES
    DEFAULT_MAX_FILE_SIZE (fun f => Except.ok f.name) (fun _ => "fresh")
    (List.replicate 10 { name := "p.jpg", type := "image/jpeg", size := 1 })
    (by decide) (by decide)

/-- C3: for valid indices, `reorder` is a permutation of the list (same
records, hence same multiset of ids and same length), dragging an element
onto its own position is the identity, and a reorder followed by the inverse
reorder restores the original list. -/
theorem reorder_permutation_roundtrip_C3 (l : List ImageItem) (i j : Nat)
    (hi : i < l.length) (hj : j < l.length) :
    List.Perm (reorder l i j) l ∧
    List.Perm ((reorder l i j).map ImageItem.id) (l.map ImageItem.id) ∧
    (reorder l i j).length = l.length ∧
    reorder l i i = l ∧
    (i ≠ j → reorder (reorder l i j) j i = l) := by
  have hperm := reorder_perm l i j hi (by omega)
  exact ⟨hperm, hperm.map ImageItem.id, hperm.length_eq, reorder_self l i,
    fun _ => reorder_reorder_self l i j hi hj⟩

/-- Witness for C3 at the boundary case `i = 0`, `j = len - 1` on a
three-element list. -/
theorem reorder_permutation_roundtrip_C3_witness :
    List.Perm
      (reorder [{ id := "a", url := "x" }, { id := "b", url := "y" },
        { id := "c", url := "z" }] 0 2)
      [{ id := "a", url := "x" }, { id := "b", url := "y" },
        { id := "c", url := "z" }] ∧
    List.Perm
      ((reorder [{ id := "a", url := "x" }, { id := "b", url := "y" },
        { id := "c", url := "z" }] 0 2).map ImageItem.id)
      (([{ id := "a", url := "x" }, { id := "b", url := "y" },
        { id := "c", url := "z" }] : List ImageItem).map ImageItem.id) ∧
    (reorder [{ id := "a", url := "x" }, { id := "b", url := "y" },
      { id := "c", url := "z" }] 0 2).length =
      ([{ id := "a", url := "x" }, { id := "b", url := "y" },
        { id := "c", url := "z" }] : List ImageItem).length ∧
    reorder [{ id := "a", url := "x" }, { id := "b", url := "y" },
      { id := "c", url := "z" }] 0 0 =
      [{ id := "a", url := "x" }, { id := "b", url := "y" },
        { id := "c", url := "z" }] ∧
    ((0 : Nat) ≠ 2 →
      reorder (reorder [{ id := "a", url := "x" }, { id := "b", url := "y" },
        { id := "c", url := "z" }] 0 2) 2 0 =
        [{ id := "a", url := "x" }, { id := "b", url := "y" },
          { id := "c", url := "z" }]) :=
  reorder_permutation_roundtrip_C3
    [{ id := "a", url := "x" }, { id := "b", url := "y" }, { id := "c", url := "z" }]
    0 2 (by decide) (by decide)

/-- C4: promotion to cover is the identity at index 0; at any valid non-zero
index it moves exactly the indexed element to position 0 while the remaining
elements keep their relative order; on any three-element list, promoting
index 2 yields `[old2, old0, old1]`. -/
theorem promoteToCover_spec_C4 (l : List ImageItem) (i : Nat)
    (hi : i < l.length) :
    promoteToCover l 0 = l ∧
    (i ≠ 0 → promoteToCover l i = l.get ⟨i, hi⟩ :: (l.take i ++ l.drop (i + 1))) ∧
    (∀ a b c : ImageItem, promoteToCover [a, b, c] 2 = [c, a, b]) := by
  refine ⟨by simp [promoteToCover], ?_, ?_⟩
  · intro h0
    rw [promoteToCover_eq_of_getElem l i _ h0 (List.getElem?_eq_getElem hi),
      List.eraseIdx_eq_take_drop_succ]
    rfl
  · intro a b c
    rfl

/-- Witness for C4 on a concrete three-element list, promoting index 2
(spec scenario B). -/
theorem promoteToCover_spec_C4_witness :
    promoteToCover [{ id := "a", url := "x" }, { id := "b", url := "y" },
      { id := "c", url := "z" }] 0 =
      [{ id := "a", url := "x" }, { id := "b", url := "y" },
        { id := "c", url := "z" }] ∧
    ((2 : Nat) ≠ 0 →
      promoteToCover [{ id := "a", url := "x" }, { id := "b", url := "y" },
        { id := "c", url := "z" }] 2 =
        ([{ id := "a", url := "x" }, { id := "b", url := "y" },
          { id := "c", url := "z" }] : List ImageItem).get ⟨2, by decide⟩ ::
          (([{ id := "a", url := "x" }, { id := "b", url := "y" },
            { id := "c", url := "z" }] : List ImageItem).take 2 ++
           ([{ id := "a", url := "x" }, { id := "b", url := "y" },
            { id := "c", url := "z" }] : List ImageItem).drop 3)) ∧
    (∀ a b c : ImageItem, promoteToCover [a, b, c] 2 = [c, a, b]) :=
  promoteToCover_spec_C4
    [{ id := "a", url := "x" }, { id := "b", url := "y" }, { id := "c", url := "z" }]
    2 (by decide)

/-- C5: the per-file validator, a total function (it cannot throw), returns no
error exactly when the declared type is in the allow-list and the size is
within the limit; it returns the single type-violation message when the type
is not allowed, and the single size-violation message when the type is
allowed but the size exceeds the limit. -/
theorem validateFile_spec_C5 (allowedTypes : List String) (maxFileSize : Nat)
    (f : SrcFile) :
    (validateFile allowedTypes maxFileSize f = none ↔
      f.type ∈ allowedTypes ∧ f.size ≤ maxFileSize) ∧
    (f.type ∉ allowedTypes →
      validateFile allowedTypes maxFileSize f =
        some (typeErrorMsg allowedTypes f)) ∧
    (f.type ∈ allowedTypes → maxFileSize < f.size →
      validateFile allowedTypes maxFileSize f =
        some (sizeErrorMsg maxFileSize f)) := by
  unfold validateFile
  by_cases hm : f.type ∈ allowedTypes
  · have hc : ¬ ¬ allowedTypes.contains f.type = true := by
      simpa [List.elem_iff] using hm
    rw [if_neg hc]
    by_cases hs : f.size > maxFileSize
    · rw [if_pos hs]
      exact ⟨by simp; omega, fun h => absurd hm h, fun _ _ => rfl⟩
    · rw [if_neg hs]
      exact ⟨by simp [hm]; omega, fun h => absurd hm h, fun _ h2 => absurd h2 hs⟩
  · have hc : ¬ allowedTypes.contains f.type = true := by
      simpa [List.elem_iff] using hm
    rw [if_pos hc]
    exact ⟨by simp [hm], fun _ => rfl, fun h => absurd h hm⟩

/-- Witness for C5: a 1-byte JPEG under the default configuration. -/
theorem validateFile_spec_C5_witness :
    (validateFile DEFAULT_ALLOWED_TYPES DEFAULT_MAX_FILE_SIZE
        { name := "p.jpg", type := "image/jpeg", size := 1 } = none ↔
      ("image/jpeg" : String) ∈ DEFAULT_ALLOWED_TYPES ∧ (1 : Nat) ≤ DEFAULT_MAX_FILE_SIZE) ∧
    (("image/jpeg" : String) ∉ DEFAULT_ALLOWED_TYPES →
      validateFile DEFAULT_ALLOWED_TYPES DEFAULT_MAX_FILE_SIZE
        { name := "p.jpg", type := "image/jpeg", size := 1 } =
        some (typeErrorMsg DEFAULT_ALLOWED_TYPES
          { name := "p.jpg", type := "image/jpeg", size := 1 })) ∧
    (("image/jpeg" : String) ∈ DEFAULT_ALLOWED_TYPES → DEFAULT_MAX_FILE_SIZE < 1 →
      validateFile DEFAULT_ALLOWED_TYPES DEFAULT_MAX_FILE_SIZE
        { name := "p.jpg", type := "image/jpeg", size := 1 } =
        some (sizeErrorMsg DEFAULT_MAX_FILE_SIZE
          { name := "p.jpg", type := "image/jpeg", size := 1 })) :=
  validateFile_spec_C5 DEFAULT_ALLOWED_TYPES DEFAULT_MAX_FILE_SIZE
    { name := "p.jpg", type := "image/jpeg", size := 1 }

/-- C8: committing a crop result replaces only the `url` of the indexed
record: the list keeps its length; at the index the record keeps its `id` and
`file` and gets the new url; every other position is untouched. -/
theorem crop_update_frame_C8 (l : List ImageItem) (i : Nat) (u : String)
    (hi : i < l.length) :
    (handleCropComplete l i u).length = l.length ∧
    (handleCropComplete l i u)[i]? =
      some { id := (l.get ⟨i, hi⟩).id, url := u, file := (l.get ⟨i, hi⟩).file } ∧
    (∀ j : Nat, j ≠ i → (handleCropComplete l i u)[j]? = l[j]?) := by
  rw [handleCropComplete_eq_of_getElem l i u _ (List.getElem?_eq_getElem hi)]
  refine ⟨by simp, ?_, ?_⟩
  · rw [List.getElem?_set_eq_of_lt _ hi]
    rfl
  · intro j hj
    rw [List.getElem?_set_ne (by omega)]

/-- Witness for C8: replacing the url of the middle record of a
three-element list. -/
theorem crop_update_frame_C8_witness :
    (handleCropComplete [{ id := "a", url := "x" }, { id := "b", url := "y" },
      { id := "c", url := "z" }] 1 "w").length = 3 ∧
    (handleCropComplete [{ id := "a", url := "x" }, { id := "b", url := "y" },
      { id := "c", url := "z" }] 1 "w")[1]? = some { id := "b", url := "w" } ∧
    (∀ j : Nat, j ≠ 1 →
      (handleCropComplete [{ id := "a", url := "x" }, { id := "b", url := "y" },
        { id := "c", url := "z" }] 1 "w")[j]? =
        ([{ id := "a", url := "x" }, { id := "b", url := "y" },
          { id := "c", url := "z" }] : List ImageItem)[j]?) :=
  crop_update_frame_C8
    [{ id := "a", url := "x" }, { id := "b", url := "y" }, { id := "c", url := "z" }]
    1 "w" (by decide)

/-- C9: removing at a valid index erases exactly the indexed element — the
result is the prefix before the index followed by the suffix after it (so the
remaining elements keep their relative order, shifted down past the index)
and its length is one less. -/
theorem remove_spec_C9 (l : List ImageItem) (i : Nat) (hi : i < l.length) :
    handleRemoveImage l i = l.take i ++ l.drop (i + 1) ∧
    handleRemoveImage l i = l.eraseIdx i ∧
    (handleRemoveImage l i).length = l.length - 1 := by
  have h := handleRemoveImage_eq_take_drop l i
  refine ⟨h, by rw [h, List.eraseIdx_eq_take_drop_succ], ?_⟩
  rw [h]
  simp only [List.length_append, List.length_take, List.length_drop]
  omega

/-- Witness for C9: removing the middle element of a three-element list. -/
theorem remove_spec_C9_witness :
    handleRemoveImage [{ id := "a", url := "x" }, { id := "b", url := "y" },
      { id := "c", url := "z" }] 1 =
      ([{ id := "a", url := "x" }, { id := "b", url := "y" },
        { id := "c", url := "z" }] : List ImageItem).take 1 ++
      ([{ id := "a", url := "x" }, { id := "b", url := "y" },
        { id := "c", url := "z" }] : List ImageItem).drop 2 ∧
    handleRemoveImage [{ id := "a", url := "x" }, { id := "b", url := "y" },
      { id := "c", url := "z" }] 1 =
      ([{ id := "a", url := "x" }, { id := "b", url := "y" },
        { id := "c", url := "z" }] : List ImageItem).eraseIdx 1 ∧
    (handleRemoveImage [{ id := "a", url := "x" }, { id := "b", url := "y" },
      { id := "c", url := "z" }] 1).length =
      ([{ id := "a", url := "x" }, { id := "b", url := "y" },
        { id := "c", url := "z" }] : List ImageItem).length - 1 :=
  remove_spec_C9
    [{ id := "a", url := "x" }, { id := "b", url := "y" }, { id := "c", url := "z" }]
    1 (by decide)

/-- C10: no-op user actions never call `onChange`: promoting index 0,
ending a drag with no tracked drag or drop index, ending it on the dragged
position itself, ending it with reordering disabled, and submitting an empty
file selection all leave the list callback uninvoked. -/
theorem noop_actions_silent_C10 (l images : List ImageItem) (e : Bool)
    (i : Nat) (dj : Option Nat) (maxImages : Nat) (allowedTypes : List String)
    (maxFileSize : Nat) (resolve : SrcFile → Except String String)
    (idGen : Nat → String) :
    handleSetAsCover l 0 = none ∧
    handleDragEnd e l none dj = none ∧
    handleDragEnd e l (some i) none = none ∧
    handleDragEnd e l (some i) (some i) = none ∧
    handleDragEnd false l (some i) dj = none ∧
    handleFiles images maxImages allowedTypes maxFileSize resolve idGen [] =
      { onChangeCalls := [], aggregateErrors := 0, validationReports := [],
        processFailures := 0, successReports := [] } := by
  refine ⟨rfl, ?_, ?_, ?_, ?_, rfl⟩
  · cases e <;> cases dj <;> rfl
  · cases e <;> rfl
  · cases e
    · rfl
    · simp [handleDragEnd]
  · cases dj <;> rfl

/-- C2: when the batch passes the ceiling check but some accepted file fails
to resolve, nothing is committed: `onChange` is never invoked (so records
resolved before the failure are discarded and the caller's snapshot stays as
it was), exactly one failure is reported, and no success is reported. -/
theorem processing_failure_abandons_batch_C2 (images : List ImageItem)
    (maxImages : Nat) (allowedTypes : List String) (maxFileSize : Nat)
    (resolve : SrcFile → Except String String) (idGen : Nat → String)
    (files : List SrcFile) (f : SrcFile) (e : String)
    (hne : files ≠ [])
    (hfit : images.length + files.length ≤ maxImages)
    (hmem : f ∈ validFilesOf allowedTypes maxFileSize files)
    (hfail : resolve f = Except.error e) :
    handleFiles images maxImages allowedTypes maxFileSize resolve idGen files =
      { onChangeCalls := [], aggregateErrors := 0,
        validationReports := reportsOf allowedTypes maxFileSize files,
        processFailures := 1, successReports := [] } := by
  have h0 : ¬ files.length = 0 := by simpa [List.length_eq_zero] using hne
  have h1 : ¬ images.length + files.length > maxImages := by omega
  have hv : (validFilesOf allowedTypes maxFileSize files).length > 0 :=
    List.length_pos.mpr (List.ne_nil_of_mem hmem)
  obtain ⟨e2, he2⟩ := resolveAll_error_of_mem resolve idGen
    (validFilesOf allowedTypes maxFileSize files) 0 f e hmem hfail
  exact handleFiles_eq_of_error images maxImages allowedTypes maxFileSize
    resolve idGen files e2 h0 h1 hv he2

/-- Witness for C2: of two valid files the first resolves and the second
fails, so the batch is abandoned with one failure, no validation report, and
no `onChange`. -/
theorem processing_failure_abandons_batch_C2_witness :
    handleFiles ([] : List ImageItem) 10 DEFAULT_ALLOWED_TYPES
      DEFAULT_MAX_FILE_SIZE
      (fun f => if f.name = "b.jpg" then Except.error "boom"
        else Except.ok f.name)
      (fun _ => "fresh")
      [{ name := "a.jpg", type := "image/jpeg", size := 1 },
        { name := "b.jpg", type := "image/jpeg", size := 1 }] =
      { onChangeCalls := [], aggregateErrors := 0, validationReports := [],
        processFailures := 1, successReports := [] } :=
  processing_failure_abandons_batch_C2 [] 10 DEFAULT_ALLOWED_TYPES
    DEFAULT_MAX_FILE_SIZE
    (fun f => if f.name = "b.jpg" then Except.error "boom"
      else Except.ok f.name)
    (fun _ => "fresh")
    [{ name := "a.jpg", type := "image/jpeg", size := 1 },
      { name := "b.jpg", type := "image/jpeg", size := 1 }]
    { name := "b.jpg", type := "image/jpeg", size := 1 } "boom"
    (by decide) (by decide) (by decide) rfl

/-- C6: when every accepted file resolves, `handleFiles` calls `onChange`
exactly once, with the old list extended at the end by exactly one new record
per accepted file in the original selection order (each keeping its source
file, with the url its resolver returned), and reports that many successes. -/
theorem intake_success_commit_C6 (images : List ImageItem) (maxImages : Nat)
    (allowedTypes : List String) (maxFileSize : Nat)
    (resolve : SrcFile → Except String String) (idGen : Nat → String)
    (files : List SrcFile)
    (hne : files ≠ [])
    (hfit : images.length + files.length ≤ maxImages)
    (hv : validFilesOf allowedTypes maxFileSize files ≠ [])
    (hok : ∀ f ∈ validFilesOf allowedTypes maxFileSize files,
      ∃ u, resolve f = Except.ok u) :
    ∃ newImages : List ImageItem,
      (handleFiles images maxImages allowedTypes maxFileSize resolve idGen
        files).onChangeCalls = [images ++ newImages] ∧
      (handleFiles images maxImages allowedTypes maxFileSize resolve idGen
        files).successReports = [newImages.length] ∧
      newImages.length = (validFilesOf allowedTypes maxFileSize files).length ∧
      ∀ (m : Nat) (h1 : m < newImages.length)
        (h2 : m < (validFilesOf allowedTypes maxFileSize files).length),
        (newImages.get ⟨m, h1⟩).file =
          some ((validFilesOf allowedTypes maxFileSize files).get ⟨m, h2⟩) ∧
        resolve ((validFilesOf allowedTypes maxFileSize files).get ⟨m, h2⟩) =
          Except.ok ((newImages.get ⟨m, h1⟩).url) := by
  have h0 : ¬ files.length = 0 := by simpa [List.length_eq_zero] using hne
  have h1 : ¬ images.length + files.length > maxImages := by omega
  have hv' : (validFilesOf allowedTypes maxFileSize files).length > 0 :=
    List.length_pos.mpr hv
  obtain ⟨out, hout⟩ := resolveAll_ok_of_forall resolve idGen _ 0 hok
  have heq := handleFiles_eq_of_ok images maxImages allowedTypes maxFileSize
    resolve idGen files out h0 h1 hv' hout
  obtain ⟨hlen, hall⟩ := resolveAll_ok_spec resolve idGen _ 0 out hout
  refine ⟨out, by rw [heq], by rw [heq], hlen, ?_⟩
  intro m hm1 hm2
  exact ⟨(hall m hm1 hm2).2.1, (hall m hm1 hm2).2.2⟩

/-- Witness for C6, spec scenario A: adding two valid JPEG files to the empty
list commits once, in order, with two records. -/
theorem intake_success_commit_C6_witness :
    ∃ newImages : List ImageItem,
      (handleFiles ([] : List ImageItem) 10 DEFAULT_ALLOWED_TYPES
        DEFAULT_MAX_FILE_SIZE (fun f => Except.ok ("data:" ++ f.name))
        (fun n => toString n)
        [{ name := "a.jpg", type := "image/jpeg", size := 1 },
          { name := "b.jpg", type := "image/jpeg", size := 1 }]).onChangeCalls =
        [([] : List ImageItem) ++ newImages] ∧
      (handleFiles ([] : List ImageItem) 10 DEFAULT_ALLOWED_TYPES
        DEFAULT_MAX_FILE_SIZE (fun f => Except.ok ("data:" ++ f.name))
        (fun n => toString n)
        [{ name := "a.jpg", type := "image/jpeg", size := 1 },
          { name := "b.jpg", type := "image/jpeg", size := 1 }]).successReports =
        [newImages.length] ∧
      newImages.length = (validFilesOf DEFAULT_ALLOWED_TYPES DEFAULT_MAX_FILE_SIZE
        [{ name := "a.jpg", type := "image/jpeg", size := 1 },
          { name := "b.jpg", type := "image/jpeg", size := 1 }]).length ∧
      ∀ (m : Nat) (h1 : m < newImages.length)
        (h2 : m < (validFilesOf DEFAULT_ALLOWED_TYPES DEFAULT_MAX_FILE_SIZE
          [{ name := "a.jpg", type := "image/jpeg", size := 1 },
            { name := "b.jpg", type := "image/jpeg", size := 1 }]).length),
        (newImages.get ⟨m, h1⟩).file =
          some ((validFilesOf DEFAULT_ALLOWED_TYPES DEFAULT_MAX_FILE_SIZE
            [{ name := "a.jpg", type := "image/jpeg", size := 1 },
              { name := "b.jpg", type := "image/jpeg", size := 1 }]).get ⟨m, h2⟩) ∧
        (Except.ok ("data:" ++
            ((validFilesOf DEFAULT_ALLOWED_TYPES DEFAULT_MAX_FILE_SIZE
              [{ name := "a.jpg", type := "image/jpeg", size := 1 },
                { name := "b.jpg", type := "image/jpeg", size := 1 }]).get ⟨m, h2⟩).name) :
            Except String String) =
          Except.ok ((newImages.get ⟨m, h1⟩).url) :=
  intake_success_commit_C6 [] 10 DEFAULT_ALLOWED_TYPES DEFAULT_MAX_FILE_SIZE
    (fun f => Except.ok ("data:" ++ f.name)) (fun n => toString n)
    [{ name := "a.jpg", type := "image/jpeg", size := 1 },
      { name := "b.jpg", type := "image/jpeg", size := 1 }]
    (by decide) (by decide) (by decide)
    (fun f _ => ⟨"data:" ++ f.name, rfl⟩)

/-- C7: ids travel with their records and stay pairwise distinct. Remove,
reorder, promote and crop-update preserve a duplicate-free id list (the
crop-update keeps every id exactly in place), and a committed batch appends
records whose ids come from the generator supply, so if the supply values are
pairwise distinct and fresh with respect to the current list, the committed
snapshot's ids are pairwise distinct again. -/
theorem ids_distinct_preserved_C7 (l : List ImageItem) (i j : Nat) (u : String)
    (images : List ImageItem) (allowedTypes : List String) (maxFileSize : Nat)
    (resolve : SrcFile → Except String String) (idGen : Nat → String)
    (files : List SrcFile)
    (hi : i < l.length) (hj : j < l.length)
    (hndl : (l.map ImageItem.id).Nodup)
    (hndi : (images.map ImageItem.id).Nodup)
    (hfresh : ∀ m : Nat, m < files.length → ∀ n : Nat, n < files.length →
      m ≠ n → idGen m ≠ idGen n)
    (hnew : ∀ m : Nat, m < files.length → idGen m ∉ images.map ImageItem.id) :
    ((handleRemoveImage l i).map ImageItem.id).Nodup ∧
    ((reorder l i j).map ImageItem.id).Nodup ∧
    ((promoteToCover l i).map ImageItem.id).Nodup ∧
    ((handleCropComplete l i u).map ImageItem.id).Nodup ∧
    (handleCropComplete l i u).map ImageItem.id = l.map ImageItem.id ∧
    (∀ out : List ImageItem,
      resolveAll resolve idGen 0 (validFilesOf allowedTypes maxFileSize files) =
        Except.ok out →
      ((images ++ out).map ImageItem.id).Nodup) := by
  have hvle : (validFilesOf allowedTypes maxFileSize files).length ≤ files.length :=
    List.length_filter_le _ _
  refine ⟨?_, ?_, ?_, ?_, handleCropComplete_map_id l i u, ?_⟩
  · have h1 : handleRemoveImage l i = l.eraseIdx i := by
      rw [handleRemoveImage_eq_take_drop, List.eraseIdx_eq_take_drop_succ]
    rw [h1]
    exact hndl.sublist ((List.eraseIdx_sublist l i).map ImageItem.id)
  · exact ((reorder_perm l i j hi (by omega)).map ImageItem.id).nodup_iff.mpr hndl
  · exact ((promoteToCover_perm l i hi).map ImageItem.id).nodup_iff.mpr hndl
  · rw [handleCropComplete_map_id l i u]
    exact hndl
  · intro out hout
    have hids := resolveAll_ok_ids resolve idGen _ 0 out hout
    rw [List.map_append, List.nodup_append]
    refine ⟨hndi, ?_, ?_⟩
    · rw [hids]
      refine List.Nodup.map_on ?_ (List.nodup_range _)
      intro a ha b hb hab
      by_contra hab2
      have ha' := List.mem_range.mp ha
      have hb' := List.mem_range.mp hb
      exact hfresh a (by omega) b (by omega) hab2 (by simpa using hab)
    · intro x hx1 hx2
      rw [hids] at hx2
      obtain ⟨m, hm, hmx⟩ := List.mem_map.mp hx2
      have hm' := List.mem_range.mp hm
      refine hnew m (by omega) ?_
      have hx : idGen m = x := by simpa using hmx
      rw [hx]
      exact hx1

/-- Witness for C7: two-record list, fresh two-value generator supply, two
valid incoming files, one pre-existing record. -/
theorem ids_distinct_preserved_C7_witness :
    ((handleRemoveImage [{ id := "a", url := "x" }, { id := "b", url := "y" }]
      1).map ImageItem.id).Nodup ∧
    ((reorder [{ id := "a", url := "x" }, { id := "b", url := "y" }] 1
      0).map ImageItem.id).Nodup ∧
    ((promoteToCover [{ id := "a", url := "x" }, { id := "b", url := "y" }]
      1).map ImageItem.id).Nodup ∧
    ((handleCropComplete [{ id := "a", url := "x" }, { id := "b", url := "y" }]
      1 "w").map ImageItem.id).Nodup ∧
    (handleCropComplete [{ id := "a", url := "x" }, { id := "b", url := "y" }]
      1 "w").map ImageItem.id =
      ([{ id := "a", url := "x" }, { id := "b", url := "y" }] :
        List ImageItem).map ImageItem.id ∧
    (∀ out : List ImageItem,
      resolveAll (fun f => Except.ok f.name)
        (fun n => if n = 0 then "x0" else "x1") 0
        (validFilesOf DEFAULT_ALLOWED_TYPES DEFAULT_MAX_FILE_SIZE
          [{ name := "a.jpg", type := "image/jpeg", size := 1 },
            { name := "b.jpg", type := "image/jpeg", size := 1 }]) =
        Except.ok out →
      ((([{ id := "c", url := "z" }] : List ImageItem) ++ out).map
        ImageItem.id).Nodup) :=
  ids_distinct_preserved_C7
    [{ id := "a", url := "x" }, { id := "b", url := "y" }] 1 0 "w"
    [{ id := "c", url := "z" }] DEFAULT_ALLOWED_TYPES DEFAULT_MAX_FILE_SIZE
    (fun f => Except.ok f.name) (fun n => if n = 0 then "x0" else "x1")
    [{ name := "a.jpg", type := "image/jpeg", size := 1 },
      { name := "b.jpg", type := "image/jpeg", size := 1 }]
    (by decide) (by decide) (by decide) (by decide) (by decide) (by decide)

end ImageForm
